import Mathlib

/-!
Verification of the content-automation core of the `sns-automation` repository.

The definitions below are a shallow embedding of the Python source:
  * `src/sns_automation/utils/linter.py`          (`ScriptLinter.check_script`)
  * `src/sns_automation/chapter3_content.py`      (`_parse_ideas`, `_extract_narration`,
                                                   `generate_script`)
  * `src/sns_automation/utils/idea_analyzer.py`   (`IdeaAnalyzer.analyze_ideas`,
                                                   `should_regenerate`)
  * `src/sns_automation/utils/script_previewer.py` (`preview_script`, `_extract_slides`)

Modelling conventions:
  * Python `str` is modelled as `String` / `List Char`; all scanning runs over
    code points, matching Python 3 string semantics.
  * Python `str.strip()` is `pyStrip` over the standard Python whitespace set.
  * The few regular expressions in the source are literal strings, alternations
    of literal strings, or a single `A.*B` / lazy `A(.*?)B` form; `RePat` models
    exactly these shapes with CPython `re` leftmost, non-overlapping semantics
    (`.` does not match a newline).
  * Float arithmetic in the source (`narration_length / 6.5`,
    `(count / len(ideas)) * 100`) is modelled over `ℚ`; at the divisors used
    (6.5 = 13/2 is exactly representable and batch sizes are far below 2^52)
    the comparisons against the constants 24, 42 and 50 agree with the IEEE
    double computation.
  * Diagnostic message strings built with f-string interpolation are modelled
    structurally: each finding/warning keeps its classification tag, context
    and the dynamic payload of its message, not the surrounding Japanese
    template text.
  * `int(...)` validation in `_parse_ideas` is modelled by `pyIntOk` (optional
    surrounding whitespace, optional sign, ASCII digits with single embedded
    underscores); exotic Unicode decimal digits accepted by CPython are outside
    the inputs considered here.
-/

/-- Python's `str.isspace` character set (the characters `str.strip()` removes). -/
def pyIsSpace (c : Char) : Bool :=
  c.val = 9 || c.val = 10 || c.val = 11 || c.val = 12 || c.val = 13 ||
  (28 ≤ c.val && c.val ≤ 32) || c.val = 0x85 || c.val = 0xA0 || c.val = 0x1680 ||
  (0x2000 ≤ c.val && c.val ≤ 0x200A) || c.val = 0x2028 || c.val = 0x2029 ||
  c.val = 0x202F || c.val = 0x205F || c.val = 0x3000

/-- Python `str.strip()` on a list of characters. -/
def pyStrip (l : List Char) : List Char :=
  ((l.dropWhile pyIsSpace).reverse.dropWhile pyIsSpace).reverse

/-- Python `s.split(sep)` for a one-character separator (keeps empty pieces). -/
def splitChar (sep : Char) : List Char → List (List Char)
  | [] => [[]]
  | c :: rest =>
    match splitChar sep rest with
    | [] => [[]]
    | cur :: rs => if c = sep then [] :: cur :: rs else (c :: cur) :: rs

/-- Python `sep.join(pieces)` for a one-character separator. -/
def joinSep (sep : Char) : List (List Char) → List Char
  | [] => []
  | [l] => l
  | l :: rest => l ++ sep :: joinSep sep rest

/-- Python's substring containment `sub in hay`. -/
def listContains (sub : List Char) : List Char → Bool
  | [] => sub.isEmpty
  | c :: rest => sub.isPrefixOf (c :: rest) || listContains sub rest

/-- ASCII decimal digit. -/
def isAsciiDigit (c : Char) : Bool := '0' ≤ c && c ≤ '9'

/-- Tail of a CPython integer literal, right after a digit: digits with single
underscores between digits. -/
def digitsTail : List Char → Bool
  | [] => true
  | '_' :: [] => false
  | '_' :: d :: rest => isAsciiDigit d && digitsTail rest
  | c :: rest => isAsciiDigit c && digitsTail rest

/-- Nonempty digit run with single embedded underscores. -/
def digitsOk : List Char → Bool
  | [] => false
  | c :: rest => isAsciiDigit c && digitsTail rest

/-- Whether CPython `int(s)` succeeds on `s` (restricted to ASCII digits). -/
def pyIntOk (l : List Char) : Bool :=
  match pyStrip l with
  | '+' :: rest => digitsOk rest
  | '-' :: rest => digitsOk rest
  | rest => digitsOk rest

/-- The regular-expression shapes used by the source: a literal, an alternation
of literals (character classes expanded), greedy `A.*B`, and lazy `A(.*?)B`. -/
inductive RePat where
  | lit : List Char → RePat
  | alter : List (List Char) → RePat
  | dotStar : List Char → List Char → RePat
  | dotStarLazy : List Char → List Char → RePat

/-- One regex match: the full matched text and the first capture group
(empty for patterns without a group). -/
structure ReMatch where
  matched : List Char
  group1 : List Char
deriving DecidableEq

/-- Number of characters before the first newline (the span `.` may cross). -/
def nlLimit : List Char → Nat
  | [] => 0
  | c :: rest => if c = '\n' then 0 else nlLimit rest + 1

/-- Try to match a pattern at the head of `l` (CPython `re` semantics:
greedy `.*` takes the longest newline-free span, lazy `.*?` the shortest). -/
def tryMatch : RePat → List Char → Option ReMatch
  | .lit a, l => if a.isPrefixOf l then some ⟨a, []⟩ else none
  | .alter as, l => (as.find? (fun a => a.isPrefixOf l)).map (fun a => ⟨a, []⟩)
  | .dotStar a b, l =>
    if a.isPrefixOf l then
      let rest := l.drop a.length
      let lim := nlLimit rest
      match (List.range (lim + 1)).reverse.find? (fun k => b.isPrefixOf (rest.drop k)) with
      | some k => some ⟨a ++ rest.take k ++ b, rest.take k⟩
      | none => none
    else none
  | .dotStarLazy a b, l =>
    if a.isPrefixOf l then
      let rest := l.drop a.length
      let lim := nlLimit rest
      match (List.range (lim + 1)).find? (fun k => b.isPrefixOf (rest.drop k)) with
      | some k => some ⟨a ++ rest.take k ++ b, rest.take k⟩
      | none => none
    else none

/-- Leftmost non-overlapping matches, with fuel for structural recursion
(`findAll` supplies fuel `l.length`, enough because every step consumes at
least one character). -/
def findAllAux (p : RePat) : Nat → List Char → List ReMatch
  | 0, _ => []
  | _ + 1, [] => []
  | fuel + 1, c :: rest =>
    match tryMatch p (c :: rest) with
    | some m => m :: findAllAux p fuel (rest.drop (m.matched.length - 1))
    | none => findAllAux p fuel rest

/-- CPython `re.finditer` over the modelled pattern shapes. -/
def findAll (p : RePat) (l : List Char) : List ReMatch := findAllAux p l.length l

/-! ## Quality Gate (`ScriptLinter.check_script`, utils/linter.py) -/

/-- Classification tag of a quality finding (the `type` field of the Python dict). -/
inductive FType where
  | bold_usage
  | ai_pattern
  | narration_length
  | forbidden_phrase
  | tone_inconsistency
deriving DecidableEq

/-- One quality finding; `detail` carries the dynamic payload of the source's
interpolated `message` (matched text, phrase, or counts). -/
structure Finding where
  ftype : FType
  context : String
  detail : String
deriving DecidableEq

/-- Result dictionary of `check_script`. -/
structure LintResult where
  errors : List Finding
  warnings : List Finding
  error_count : Nat
  warning_count : Nat
  passed : Bool
deriving DecidableEq

/-- `_check_bold_usage`: every `**(.*?)**` match is an error. -/
def checkBoldUsage (text : List Char) (context : String) : List Finding :=
  if listContains ['*', '*'] text then
    (findAll (.dotStarLazy ['*', '*'] ['*', '*']) text).map
      (fun m => ⟨.bold_usage, context, String.mk m.group1⟩)
  else []

/-- The `ai_patterns` table of `ScriptLinter.__init__`, in declaration order. -/
def aiPatterns : List RePat :=
  [ .lit "〜することで".data,
    .lit "〜することができます".data,
    .lit "〜してみましょう".data,
    .lit "重要なポイント".data,
    .lit "効果的な".data,
    .lit "最適な".data,
    .dotStar "ぜひ".data "してみてください".data,
    .lit "いかがでしたか".data ]

/-- `_check_ai_patterns`: every match of every pattern is a warning. -/
def checkAiPatterns (text : List Char) (context : String) : List Finding :=
  aiPatterns.flatMap (fun p =>
    (findAll p text).map (fun m => ⟨.ai_pattern, context, String.mk m.matched⟩))

/-- `_check_narration_length`: warn when the stripped narration has fewer than
100 or more than 2000 characters. -/
def checkNarrationLength (narration : List Char) : List Finding :=
  let length := (pyStrip narration).length
  if length < 100 then [⟨.narration_length, "ナレーション", toString length⟩]
  else if length > 2000 then [⟨.narration_length, "ナレーション", toString length⟩]
  else []

/-- The `forbidden_phrases` table of `ScriptLinter.__init__`, in declaration order. -/
def forbiddenPhrases : List String :=
  ["AI", "Claude", "生成しました", "自動生成", "プロンプト", "GPT", "ChatGPT"]

/-- `_check_forbidden_phrases`: one error per forbidden phrase contained in the text. -/
def checkForbiddenPhrases (text : List Char) (context : String) : List Finding :=
  forbiddenPhrases.filterMap (fun phrase =>
    if listContains phrase.data text then some ⟨.forbidden_phrase, context, phrase⟩
    else none)

/-- `_check_tone_consistency`: warn when both the polite and the plain
sentence-ending patterns occur in the narration. -/
def checkToneConsistency (narration : List Char) : List Finding :=
  let desu_masu := (findAll (.alter ["です。".data, "です、".data, "ます。".data, "ます、".data]) narration).length
  let da_dearu := (findAll (.alter ["だ。".data, "だ、".data, "である。".data, "である、".data]) narration).length
  if desu_masu > 0 && da_dearu > 0 then
    [⟨.tone_inconsistency, "ナレーション", toString desu_masu ++ "," ++ toString da_dearu⟩]
  else []

/-- `ScriptLinter.check_script`: runs the rule battery in source order.  The
source appends into `self.errors` from the bold and forbidden-phrase checks
and into `self.warnings` from the AI-pattern, narration-length and tone
checks; both lists are reset at entry, so one call is pure. -/
def check_script (script_text narration : String) : LintResult :=
  let s := script_text.data
  let n := narration.data
  let errors :=
    checkBoldUsage s "台本" ++ checkBoldUsage n "ナレーション" ++
    checkForbiddenPhrases s "台本" ++ checkForbiddenPhrases n "ナレーション"
  let warnings :=
    checkAiPatterns s "台本" ++ checkAiPatterns n "ナレーション" ++
    checkNarrationLength n ++ checkToneConsistency n
  ⟨errors, warnings, errors.length, warnings.length, errors.length == 0⟩

/-! ## Extraction Layer (`ContentAutomation._parse_ideas`, `_extract_narration`,
chapter3_content.py) -/

/-- One extracted content idea (`{"no", "title", "summary", "raw_text"}`). -/
structure Idea where
  no : String
  title : String
  summary : String
  raw_text : String
deriving DecidableEq

/-- Body of the primary table-scanning loop of `_parse_ideas`, per line:
skip blank/header/separator lines, require a `|`-delimited row with at least
three cells whose first cell parses as an integer, and drop rows whose title
begins with the example marker. -/
def rowIdea (line0 : List Char) : Option Idea :=
  let line := pyStrip line0
  if line.isEmpty || "|---|".data.isPrefixOf line || "| No |".data.isPrefixOf line then
    none
  else if ['|'].isPrefixOf line && ['|'].isSuffixOf line then
    let parts := (((splitChar '|' line).drop 1).dropLast).map pyStrip
    if 3 ≤ parts.length then
      let no := pyStrip (parts.getD 0 [])
      if pyIntOk no then
        let title := pyStrip (parts.getD 1 [])
        let summary := pyStrip (parts.getD 2 [])
        if "（例：".data.isPrefixOf title then none
        else some ⟨String.mk no, String.mk title, String.mk summary, String.mk line⟩
      else none
    else none
  else none

/-- Fallback numbered-list pass of `_parse_ideas`: for each nonempty line the
source tries, for `i` from 1 to 20, the prefixes `"{i}."` then `"{i})"`
(the inner `break` only leaves the prefix loop, so every `i` is tried). -/
def fallbackIdeas (lines : List (List Char)) : List Idea :=
  lines.flatMap (fun line0 =>
    let line := pyStrip line0
    if line.isEmpty then []
    else
      (List.range' 1 20).filterMap (fun i =>
        let p1 := (toString i).data ++ ['.']
        let p2 := (toString i).data ++ [')']
        if p1.isPrefixOf line then
          some ⟨toString i, String.mk (pyStrip (line.drop p1.length)), "", String.mk line⟩
        else if p2.isPrefixOf line then
          some ⟨toString i, String.mk (pyStrip (line.drop p2.length)), "", String.mk line⟩
        else none))

/-- `ContentAutomation._parse_ideas`: the pipe-table pass, falling back to the
numbered-list pass only when the table pass recovered nothing. -/
def parse_ideas (response : String) : List Idea :=
  let lines := splitChar '\n' response.data
  let primary := lines.filterMap rowIdea
  if primary.isEmpty then fallbackIdeas lines else primary

/-- State step of `_extract_narration`'s primary scan: collect the raw lines
inside the fenced block that follows a `#`-heading containing
`ナレーション全文`. -/
def narrationPrimary : List (List Char) → Bool → Bool → List (List Char)
  | [], _, _ => []
  | line :: rest, inSection, inCode =>
    let stripped := pyStrip line
    if listContains "ナレーション全文".data stripped && ['#'].isPrefixOf stripped then
      narrationPrimary rest true inCode
    else if inSection then
      if "```".data.isPrefixOf stripped && !inCode then
        narrationPrimary rest inSection true
      else if "```".data.isPrefixOf stripped && inCode then
        narrationPrimary rest false false
      else if inCode then
        line :: narrationPrimary rest inSection inCode
      else
        narrationPrimary rest inSection inCode
    else
      narrationPrimary rest inSection inCode

/-- Fallback table pass of `_extract_narration`: second nonempty cell of each
table row that is not a separator or time-header row. -/
def narrationFallback (lines : List (List Char)) : List (List Char) :=
  lines.filterMap (fun line0 =>
    let line := pyStrip line0
    if ['|'].isPrefixOf line && !("|---".data.isPrefixOf line) &&
        !("| 時間".data.isPrefixOf line) then
      let parts := ((splitChar '|' line).map pyStrip).filter (fun p => !p.isEmpty)
      if 2 ≤ parts.length then some (parts.getD 1 []) else none
    else none)

/-- `ContentAutomation._extract_narration`.  Note the source does not reset
`narration_lines` before the fallback pass, so any (necessarily all-whitespace)
lines collected by the primary pass are kept in front of the fallback cells. -/
def extract_narration (script_text : String) : String :=
  let lines := splitChar '\n' script_text.data
  let primaryLines := narrationPrimary lines false false
  let narration := pyStrip (joinSep '\n' primaryLines)
  if narration.isEmpty then
    String.mk (pyStrip (joinSep ' ' (primaryLines ++ narrationFallback lines)))
  else String.mk narration

/-! ## Appeal Classifier (`IdeaAnalyzer`, utils/idea_analyzer.py) -/

/-- The `APPEAL_KEYWORDS` table, in declaration order. -/
def APPEAL_KEYWORDS : List (String × List String) :=
  [ ("恐怖訴求", ["NG", "失敗", "末路", "危険", "損", "後悔", "やばい", "最悪", "罠", "注意"]),
    ("メリット訴求", ["成功", "効果", "メリット", "得", "おすすめ", "最適", "ベスト", "簡単", "楽"]),
    ("権威訴求", ["プロ", "専門家", "実績", "証明", "データ", "研究", "〇〇式", "秘訣", "裏側"]),
    ("共感訴求", ["あるある", "悩み", "気持ち", "わかる", "辛い", "大変", "苦労", "不安"]),
    ("好奇心訴求", ["知ってる？", "実は", "意外", "驚き", "秘密", "真実", "裏話", "本当は"]),
    ("緊急性訴求", ["今すぐ", "すぐに", "早く", "急いで", "期間限定", "タイムリミット"]) ]

/-- `sum(1 for keyword in keywords if keyword in combined_text)`. -/
def countKw (keywords : List String) (combined : List Char) : Nat :=
  keywords.countP (fun k => listContains k.data combined)

/-- One step of CPython's `max(matches, key=matches.get)`: keep the incumbent
unless the new entry is strictly greater, so the first key attaining the
maximum wins. -/
def bestStep (best : Option (String × Nat)) (p : String × Nat) : Option (String × Nat) :=
  match best with
  | none => some p
  | some b => if p.2 > b.2 then some p else some b

/-- `title + " " + summary` of an idea, as scanned by the classifier. -/
def combinedText (idea : Idea) : List Char := (idea.title ++ " " ++ idea.summary).data

/-- Per-idea classification step of `analyze_ideas`: build the `matches` dict
(categories with a positive keyword count, in table order), then take
`max(matches, key=matches.get)`, defaulting to `"その他"` when `matches` is
empty. -/
def classifyIdea (idea : Idea) : String :=
  let combined := combinedText idea
  let matchCounts := APPEAL_KEYWORDS.filterMap (fun ck =>
    let count := countKw ck.2 combined
    if count > 0 then some (ck.1, count) else none)
  match (matchCounts.foldl bestStep none).map Prod.fst with
  | some primary => primary
  | none => "その他"

/-- `collections.Counter` over a list of labels: counts keyed in
first-occurrence order. -/
def counterAdd (acc : List (String × Nat)) (k : String) : List (String × Nat) :=
  match acc with
  | [] => [(k, 1)]
  | (k0, n) :: rest => if k0 = k then (k0, n + 1) :: rest else (k0, n) :: counterAdd rest k

/-- `Counter(appeal_types)` as an association list in first-occurrence order. -/
def counter (l : List String) : List (String × Nat) := l.foldl counterAdd []

/-- Analyzer warnings, modelled structurally (`skewed` keeps the category and
its count, `lowVariety` the number of distinct categories). -/
inductive AnalysisWarning where
  | noIdeas
  | skewed (category : String) (count : Nat)
  | lowVariety (kinds : Nat)
deriving DecidableEq

/-- Result dictionary of `analyze_ideas`.  The empty-batch return of the
source has no `appeal_types` key; that absence is modelled as `[]`. -/
structure Analysis where
  total_count : Nat
  appeal_distribution : List (String × Nat)
  appeal_types : List String
  is_balanced : Bool
  warnings : List AnalysisWarning
deriving DecidableEq

/-- `IdeaAnalyzer.analyze_ideas`.  `(count / len(ideas)) * 100 > 50` is
computed over `ℚ`. -/
def analyze_ideas (ideas : List Idea) : Analysis :=
  if ideas.isEmpty then ⟨0, [], [], false, [.noIdeas]⟩
  else
    let appeal_types := ideas.map classifyIdea
    let appeal_distribution := counter appeal_types
    let skewWarnings := appeal_distribution.filterMap (fun p =>
      if ((p.2 : ℚ) / ideas.length) * 100 > 50 then some (AnalysisWarning.skewed p.1 p.2)
      else none)
    let lowVariety := appeal_distribution.length ≤ 2
    let warnings := skewWarnings ++
      (if lowVariety then [AnalysisWarning.lowVariety appeal_distribution.length] else [])
    let is_balanced := skewWarnings.isEmpty && !lowVariety
    ⟨ideas.length, appeal_distribution, appeal_types, is_balanced, warnings⟩

/-- `IdeaAnalyzer.should_regenerate`. -/
def should_regenerate (analysis : Analysis) : Bool :=
  if !analysis.is_balanced then true
  else if analysis.appeal_distribution.length < 3 then true
  else false

/-! ## Duration/Length Estimator (`ScriptPreviewer`, utils/script_previewer.py) -/

/-- The script record consumed by `preview_script` (only the `narration` and
`full_script` keys are read). -/
structure ScriptRec where
  narration : String
  full_script : String
deriving DecidableEq

/-- One slide row extracted from the script table. -/
structure Slide where
  slide_no : String
  duration : String
  telop : String
  narration : String
deriving DecidableEq

/-- Per-slide length warnings, modelled structurally (1-based slide index and
its character count). -/
inductive SlideWarning where
  | tooFew (index chars : Nat)
  | tooMany (index chars : Nat)
deriving DecidableEq

/-- The overall timing warning, carrying the estimated duration. -/
inductive TimeWarning where
  | tooShort (duration : ℚ)
  | tooLong (duration : ℚ)
deriving DecidableEq

/-- Result dictionary of `preview_script`. -/
structure Preview where
  narration_length : Nat
  estimated_duration : ℚ
  slide_count : Nat
  slides : List Slide
  slide_warnings : List SlideWarning
  time_warning : Option TimeWarning
  has_issues : Bool
deriving DecidableEq

/-- `ScriptPreviewer._extract_slides`: keep stripped lines that start with `|`
and contain a `/`, split them on `|` dropping the boundary cells, require at
least 4 cells, and skip header (`スライドNo`) and sample (`例：`) rows.  The
source's `try`/`except` guards indexing that cannot fail after the length
check, so it is not modelled. -/
def extract_slides (script_text : String) : List Slide :=
  (splitChar '\n' script_text.data).filterMap (fun line0 =>
    let line := pyStrip line0
    if ['|'].isPrefixOf line && listContains ['/'] line then
      let parts := (((splitChar '|' line).drop 1).dropLast).map pyStrip
      if 4 ≤ parts.length then
        let slide_no := parts.getD 0 []
        let duration := parts.getD 1 []
        let telop := parts.getD 2 []
        let narration := parts.getD 3 []
        if listContains "スライドNo".data slide_no || listContains "例：".data narration then
          none
        else
          some ⟨String.mk slide_no, String.mk duration, String.mk telop, String.mk narration⟩
      else none
    else none)

/-- `ScriptPreviewer.READING_SPEED = 6.5` characters per second (exact as `ℚ`). -/
def READING_SPEED : ℚ := 13 / 2

/-- `ScriptPreviewer.preview_script`. -/
def preview_script (script : ScriptRec) : Preview :=
  let narration := script.narration
  let full_script := script.full_script
  let narration_length := narration.length
  let estimated_duration : ℚ := (narration_length : ℚ) / READING_SPEED
  let slides := extract_slides full_script
  let slide_warnings := slides.enum.filterMap (fun iSlide =>
    let char_count := iSlide.2.narration.length
    if char_count < 30 then some (SlideWarning.tooFew (iSlide.1 + 1) char_count)
    else if char_count > 49 then some (SlideWarning.tooMany (iSlide.1 + 1) char_count)
    else none)
  let time_warning :=
    if estimated_duration < 24 then some (TimeWarning.tooShort estimated_duration)
    else if estimated_duration > 42 then some (TimeWarning.tooLong estimated_duration)
    else none
  ⟨narration_length, estimated_duration, slides.length, slides, slide_warnings,
    time_warning, decide (0 < slide_warnings.length) || time_warning.isSome⟩

/-! ## Self-Correction Orchestrator (`ContentAutomation.generate_script`,
chapter3_content.py) -/

/-- `quality_score` of a generated script. -/
structure QualityScore where
  error_count : Nat
  warning_count : Nat
  attempts : Nat
deriving DecidableEq

/-- The script record returned by `generate_script`. -/
structure Script where
  idea_title : String
  full_script : String
  narration : String
  quality_score : QualityScore
deriving DecidableEq

/-- The `while attempt < max_attempts` loop of `generate_script`, with
`max_attempts = 3` as in the source.  The generation capability is modelled
as a function `gen` from the attempt number (1-based) to the raw reply; this
quantifies over every possible sequence of generator outputs, including
replies to the corrective prompts.  `fuel` is `3 - attempt` at entry; the
zero-fuel branch is unreachable from `generate_script` because the
`attempt >= max_attempts` break fires first. -/
def scriptLoop (gen : Nat → String) : Nat → Nat → String × String × LintResult × Nat
  | attempt, 0 => ("", "", check_script "" "", attempt)
  | attempt, fuel + 1 =>
    let a := attempt + 1
    let response := gen a
    let narration := extract_narration response
    let lint := check_script response narration
    if lint.error_count = 0 then (response, narration, lint, a)
    else if 3 ≤ a then (response, narration, lint, a)
    else scriptLoop gen a fuel

/-- `ContentAutomation.generate_script`: run the bounded self-correction loop
and package the last response, its narration and the residual lint counts. -/
def generate_script (idea_title : String) (gen : Nat → String) : Script :=
  let r := scriptLoop gen 0 3
  ⟨idea_title, r.1, r.2.1, ⟨r.2.2.1.error_count, r.2.2.1.warning_count, r.2.2.2⟩⟩

/-! ## Helper lemmas about the Quality Gate's finding lists -/

lemma ftype_of_mem_checkBoldUsage {f : Finding} {t : List Char} {c : String}
    (h : f ∈ checkBoldUsage t c) : f.ftype = FType.bold_usage := by
  unfold checkBoldUsage at h
  split at h
  · obtain ⟨m, -, rfl⟩ := List.mem_map.1 h
    rfl
  · exact absurd h (List.not_mem_nil f)

lemma ftype_of_mem_checkAiPatterns {f : Finding} {t : List Char} {c : String}
    (h : f ∈ checkAiPatterns t c) : f.ftype = FType.ai_pattern := by
  unfold checkAiPatterns at h
  obtain ⟨p, -, hm⟩ := List.mem_flatMap.1 h
  obtain ⟨m, -, rfl⟩ := List.mem_map.1 hm
  rfl

lemma ftype_of_mem_checkNarrationLength {f : Finding} {n : List Char}
    (h : f ∈ checkNarrationLength n) : f.ftype = FType.narration_length := by
  simp only [checkNarrationLength] at h
  split at h
  · rw [List.mem_singleton.1 h]
  · split at h
    · rw [List.mem_singleton.1 h]
    · exact absurd h (List.not_mem_nil f)

lemma ftype_of_mem_checkForbiddenPhrases {f : Finding} {t : List Char} {c : String}
    (h : f ∈ checkForbiddenPhrases t c) : f.ftype = FType.forbidden_phrase := by
  unfold checkForbiddenPhrases at h
  obtain ⟨p, -, hp⟩ := List.mem_filterMap.1 h
  split at hp
  · cases hp
    rfl
  · cases hp

lemma ftype_of_mem_checkToneConsistency {f : Finding} {n : List Char}
    (h : f ∈ checkToneConsistency n) : f.ftype = FType.tone_inconsistency := by
  simp only [checkToneConsistency] at h
  split at h
  · rw [List.mem_singleton.1 h]
  · exact absurd h (List.not_mem_nil f)

/-- **C2.** For every pair of input strings, `check_script` reports
`passed == (error_count == 0)`; `error_count`/`warning_count` are the lengths
of the finding lists; every error-severity finding is an emphasis-markup or
banned-meta-vocabulary finding, and every warning-severity finding is a
formulaic-phrasing, narration-length or register-inconsistency finding — so
warning-severity findings never make `passed` false. -/
theorem c2_passed_iff_no_errors (script_text narration : String) :
    (check_script script_text narration).passed
        = ((check_script script_text narration).error_count == 0) ∧
    (check_script script_text narration).error_count
        = (check_script script_text narration).errors.length ∧
    (check_script script_text narration).warning_count
        = (check_script script_text narration).warnings.length ∧
    ((check_script script_text narration).errors.all fun f =>
        f.ftype == FType.bold_usage || f.ftype == FType.forbidden_phrase) = true ∧
    ((check_script script_text narration).warnings.all fun f =>
        f.ftype == FType.ai_pattern || f.ftype == FType.narration_length ||
          f.ftype == FType.tone_inconsistency) = true := by
  refine ⟨rfl, rfl, rfl, ?_, ?_⟩
  · rw [List.all_eq_true]
    intro f hf
    simp only [check_script, List.mem_append] at hf
    rcases hf with ((h | h) | h) | h
    · rw [ftype_of_mem_checkBoldUsage h]
      rfl
    · rw [ftype_of_mem_checkBoldUsage h]
      rfl
    · rw [ftype_of_mem_checkForbiddenPhrases h]
      rfl
    · rw [ftype_of_mem_checkForbiddenPhrases h]
      rfl
  · rw [List.all_eq_true]
    intro f hf
    simp only [check_script, List.mem_append] at hf
    rcases hf with ((h | h) | h) | h
    · rw [ftype_of_mem_checkAiPatterns h]
      rfl
    · rw [ftype_of_mem_checkAiPatterns h]
      rfl
    · rw [ftype_of_mem_checkNarrationLength h]
      rfl
    · rw [ftype_of_mem_checkToneConsistency h]
      rfl

/-- **C7 counterexample.** The claim reads the trigger off the narration's
character count, but the source measures `len(narration.strip())`.  For a
narration of 99 `x`s followed by one space the raw character count is 100
(so the claim predicts no narration-length finding), yet the stripped length
is 99 and `check_script` does record one. -/
theorem c7_counterexample :
    ¬ ((((check_script "" (String.mk (List.replicate 99 'x' ++ [' ']))).warnings.countP
            fun f => f.ftype == FType.narration_length) ≠ 0) ↔
        ((String.mk (List.replicate 99 'x' ++ [' '])).length < 100 ∨
          2000 < (String.mk (List.replicate 99 'x' ++ [' '])).length)) := by
  decide

lemma countP_narration_checkBoldUsage (t : List Char) (c : String) :
    ((checkBoldUsage t c).countP fun f => f.ftype == FType.narration_length) = 0 := by
  rw [List.countP_eq_zero]
  intro f hf
  rw [ftype_of_mem_checkBoldUsage hf]
  decide

lemma countP_narration_checkAiPatterns (t : List Char) (c : String) :
    ((checkAiPatterns t c).countP fun f => f.ftype == FType.narration_length) = 0 := by
  rw [List.countP_eq_zero]
  intro f hf
  rw [ftype_of_mem_checkAiPatterns hf]
  decide

lemma countP_narration_checkForbiddenPhrases (t : List Char) (c : String) :
    ((checkForbiddenPhrases t c).countP fun f => f.ftype == FType.narration_length) = 0 := by
  rw [List.countP_eq_zero]
  intro f hf
  rw [ftype_of_mem_checkForbiddenPhrases hf]
  decide

lemma countP_narration_checkToneConsistency (n : List Char) :
    ((checkToneConsistency n).countP fun f => f.ftype == FType.narration_length) = 0 := by
  rw [List.countP_eq_zero]
  intro f hf
  rw [ftype_of_mem_checkToneConsistency hf]
  decide

/-- **C7 amended.** For every narration string, `check_script` records exactly
one narration-length finding — always of warning severity, never of error
severity — if and only if the narration's *whitespace-stripped* character
count is below 100 (too short) or above 2000 (too long). -/
theorem c7_amended_narration_length (script_text narration : String) :
    ((((check_script script_text narration).warnings.countP
          fun f => f.ftype == FType.narration_length) = 1) ↔
      ((pyStrip narration.data).length < 100 ∨ 2000 < (pyStrip narration.data).length)) ∧
    ((check_script script_text narration).errors.countP
        fun f => f.ftype == FType.narration_length) = 0 := by
  constructor
  · have hw : (check_script script_text narration).warnings
        = checkAiPatterns script_text.data "台本" ++ checkAiPatterns narration.data "ナレーション" ++
          checkNarrationLength narration.data ++ checkToneConsistency narration.data := rfl
    rw [hw, List.countP_append, List.countP_append, List.countP_append,
      countP_narration_checkAiPatterns, countP_narration_checkAiPatterns,
      countP_narration_checkToneConsistency]
    simp only [checkNarrationLength]
    split
    · next h1 =>
      simp only [List.countP_cons, List.countP_nil]
      norm_num
      exact Or.inl h1
    · split
      · next h1 h2 =>
        simp only [List.countP_cons, List.countP_nil]
        norm_num
        exact Or.inr h2
      · next h1 h2 =>
        simp only [List.countP_nil]
        norm_num
        omega
  · have he : (check_script script_text narration).errors
        = checkBoldUsage script_text.data "台本" ++ checkBoldUsage narration.data "ナレーション" ++
          checkForbiddenPhrases script_text.data "台本" ++
          checkForbiddenPhrases narration.data "ナレーション" := rfl
    rw [he, List.countP_append, List.countP_append, List.countP_append,
      countP_narration_checkBoldUsage, countP_narration_checkBoldUsage,
      countP_narration_checkForbiddenPhrases, countP_narration_checkForbiddenPhrases]

/-- **C9.** On the empty Idea batch, `analyze_ideas` returns the structured
empty-batch record: zero total, empty distribution, `is_balanced == false`,
and exactly the one "no ideas were generated" warning. -/
theorem c9_empty_batch :
    analyze_ideas [] = { total_count := 0
                         appeal_distribution := []
                         appeal_types := []
                         is_balanced := false
                         warnings := [AnalysisWarning.noIdeas] } := rfl

/-- The narration of Scenario A: `"。".join(["x"] * 50)`. -/
def scenarioNarr : String := String.mk (joinSep '。' (List.replicate 50 ['x']))

/-- **C8 counterexample.** Scenario A's narration `"。".join(["x"]*50)` has 99
characters (50 `x`s and 49 separators), not the 150 the claim states, so
`preview_script` reports `narration_length = 99`. -/
theorem c8_counterexample :
    (preview_script ⟨scenarioNarr, ""⟩).narration_length ≠ 150 ∧
    (preview_script ⟨scenarioNarr, ""⟩).narration_length = 99 := by
  constructor
  · decide
  · decide

/-- **C8 amended.** For every script record, `preview_script` reports
`narration_length` equal to the narration's character count and
`estimated_duration = narration_length / 6.5`, and records the (single,
optional) overall timing warning iff the estimated duration falls outside
`[24, 42]`; in particular, for the Scenario A narration `"。".join(["x"]*50)`
it reports `narration_length = 99`, `estimated_duration = 198/13 ≈ 15.2`
seconds, and triggers the overall too-short timing warning. -/
theorem c8_amended_preview (script : ScriptRec) :
    (preview_script script).narration_length = script.narration.length ∧
    (preview_script script).estimated_duration
        = (script.narration.length : ℚ) / READING_SPEED ∧
    ((preview_script script).time_warning.isSome = true ↔
      ((preview_script script).estimated_duration < 24 ∨
        42 < (preview_script script).estimated_duration)) ∧
    (preview_script ⟨scenarioNarr, ""⟩).narration_length = 99 ∧
    (preview_script ⟨scenarioNarr, ""⟩).estimated_duration = 198 / 13 ∧
    (preview_script ⟨scenarioNarr, ""⟩).time_warning
        = some (TimeWarning.tooShort (198 / 13)) := by
  have hlen : scenarioNarr.length = 99 := by decide
  have hiff : ∀ s : ScriptRec, ((preview_script s).time_warning.isSome = true ↔
      ((preview_script s).estimated_duration < 24 ∨
        42 < (preview_script s).estimated_duration)) := by
    intro s
    by_cases h1 : ((s.narration.length : ℚ) / READING_SPEED) < 24
    · simp [preview_script, h1]
    · by_cases h2 : (42 : ℚ) < ((s.narration.length : ℚ) / READING_SPEED)
      · simp [preview_script, h1, h2]
      · simp [preview_script, h1, h2]
  have hed : ((scenarioNarr.length : ℚ) / READING_SPEED) = 198 / 13 := by
    rw [hlen]
    unfold READING_SPEED
    norm_num
  refine ⟨rfl, rfl, hiff script, hlen, hed, ?_⟩
  show (preview_script ⟨scenarioNarr, ""⟩).time_warning = some (TimeWarning.tooShort (198 / 13))
  simp only [preview_script]
  rw [hed]
  rw [if_pos (by norm_num : (198 : ℚ) / 13 < 24)]

/-- **C10.** `_extract_slides` considers only stripped lines that both start
with `|` and contain a `/`; when no line of the script text qualifies,
`preview_script` reports `slide_count == 0` and no per-slide warnings, so
`has_issues` can only come from the overall timing warning. -/
theorem c10_slides_need_slash (script : ScriptRec)
    (h : ∀ line ∈ splitChar '\n' script.full_script.data,
      (['|'].isPrefixOf (pyStrip line) && listContains ['/'] (pyStrip line)) = false) :
    (preview_script script).slide_count = 0 ∧
    (preview_script script).slide_warnings = [] ∧
    ((preview_script script).has_issues = true ↔
      (preview_script script).time_warning.isSome = true) := by
  have hs : extract_slides script.full_script = [] := by
    unfold extract_slides
    rw [List.filterMap_eq_nil_iff]
    intro line hl
    simp only [h line hl, Bool.false_eq_true, if_false]
  refine ⟨?_, ?_, ?_⟩
  · show (extract_slides script.full_script).length = 0
    rw [hs]
    rfl
  · show (List.enum (extract_slides script.full_script)).filterMap _ = []
    rw [hs]
    rfl
  · simp [preview_script, hs]

/-- **C10 witness.** A script whose only table row contains no `/`. -/
theorem c10_witness :
    (preview_script ⟨"abc", "| a | b |"⟩).slide_count = 0 ∧
    (preview_script ⟨"abc", "| a | b |"⟩).slide_warnings = [] ∧
    ((preview_script ⟨"abc", "| a | b |"⟩).has_issues = true ↔
      (preview_script ⟨"abc", "| a | b |"⟩).time_warning.isSome = true) :=
  c10_slides_need_slash ⟨"abc", "| a | b |"⟩ (by decide)


/-! ## Claim-side predicates for the idea extractor -/

/-- Claim-side: a pipe-table row whose first cell parses as an integer
(stripped line delimited by `|` with at least three cells). -/
def specIntTableRow (line0 : List Char) : Bool :=
  let line := pyStrip line0
  ['|'].isPrefixOf line && ['|'].isSuffixOf line &&
    (decide (3 ≤ ((((splitChar '|' line).drop 1).dropLast).map pyStrip).length) &&
      pyIntOk (pyStrip (((((splitChar '|' line).drop 1).dropLast).map pyStrip).getD 0 [])))

/-- Claim-side: a numbered-list line `"{n}."` or `"{n})"` with `n` in the
bounded range 1–20 scanned by the fallback pass. -/
def specNumberedLine (line0 : List Char) : Bool :=
  let line := pyStrip line0
  (List.range' 1 20).any (fun i =>
    ((toString i).data ++ ['.']).isPrefixOf line ||
      ((toString i).data ++ [')']).isPrefixOf line)

/-- Claim-side: a valid table row of `_parse_ideas` — an integer-keyed pipe
row that is not a blank/header/separator line and whose title does not start
with the example marker. -/
def specValidRow (line0 : List Char) : Bool :=
  let line := pyStrip line0
  !line.isEmpty && !("|---|".data.isPrefixOf line) && !("| No |".data.isPrefixOf line) &&
    ['|'].isPrefixOf line && ['|'].isSuffixOf line &&
    (decide (3 ≤ ((((splitChar '|' line).drop 1).dropLast).map pyStrip).length) &&
      pyIntOk (pyStrip (((((splitChar '|' line).drop 1).dropLast).map pyStrip).getD 0 [])) &&
        !("（例：".data.isPrefixOf
            (pyStrip (((((splitChar '|' line).drop 1).dropLast).map pyStrip).getD 1 []))))

/-- Claim-side: the Idea built from a valid table row's first three cells. -/
def specIdeaOfRow (line0 : List Char) : Idea :=
  let line := pyStrip line0
  let parts := (((splitChar '|' line).drop 1).dropLast).map pyStrip
  ⟨String.mk (pyStrip (parts.getD 0 [])), String.mk (pyStrip (parts.getD 1 [])),
    String.mk (pyStrip (parts.getD 2 [])), String.mk line⟩

lemma rowIdea_eq_spec (line : List Char) :
    rowIdea line = if specValidRow line = true then some (specIdeaOfRow line) else none := by
  simp only [rowIdea]
  by_cases hc : ((pyStrip line).isEmpty || "|---|".data.isPrefixOf (pyStrip line) ||
      "| No |".data.isPrefixOf (pyStrip line)) = true
  · rw [if_pos hc]
    have hv : specValidRow line = false := by
      rcases Bool.or_eq_true_iff.1 hc with hAB | hC
      · rcases Bool.or_eq_true_iff.1 hAB with hA | hB
        · simp only [specValidRow, hA, Bool.not_true, Bool.false_and]
        · simp only [specValidRow, hB, Bool.not_true, Bool.false_and, Bool.and_false]
      · simp only [specValidRow, hC, Bool.not_true, Bool.false_and, Bool.and_false]
    rw [hv, if_neg Bool.false_ne_true]
  · rw [if_neg hc]
    by_cases hde : (['|'].isPrefixOf (pyStrip line) && ['|'].isSuffixOf (pyStrip line)) = true
    · rw [if_pos hde]
      by_cases hF : 3 ≤ ((((splitChar '|' (pyStrip line)).drop 1).dropLast).map pyStrip).length
      · rw [if_pos hF]
        by_cases hG : pyIntOk (pyStrip (((((splitChar '|' (pyStrip line)).drop
            1).dropLast).map pyStrip).getD 0 [])) = true
        · rw [if_pos hG]
          by_cases hH : "（例：".data.isPrefixOf (pyStrip (((((splitChar '|' (pyStrip
              line)).drop 1).dropLast).map pyStrip).getD 1 [])) = true
          · rw [if_pos hH]
            have hv : specValidRow line = false := by
              simp only [specValidRow, hH, Bool.not_true, Bool.false_and, Bool.and_false]
            rw [hv, if_neg Bool.false_ne_true]
          · rw [if_neg hH]
            obtain ⟨hA, hB, hC⟩ : (pyStrip line).isEmpty = false ∧
                "|---|".data.isPrefixOf (pyStrip line) = false ∧
                "| No |".data.isPrefixOf (pyStrip line) = false := by
              rcases Bool.or_eq_false_iff.1 (Bool.eq_false_iff.2 hc) with ⟨h12, h3⟩
              rcases Bool.or_eq_false_iff.1 h12 with ⟨h1, h2⟩
              exact ⟨h1, h2, h3⟩
            obtain ⟨hD, hE⟩ := Bool.and_eq_true_iff.1 hde
            have hHf : "（例：".data.isPrefixOf (pyStrip (((((splitChar '|' (pyStrip
                line)).drop 1).dropLast).map pyStrip).getD 1 [])) = false :=
              Bool.eq_false_iff.2 hH
            have hv : specValidRow line = true := by
              simp only [specValidRow, hA, hB, hC, hD, hE, hG, hHf, Bool.not_false,
                decide_eq_true hF, Bool.true_and, Bool.and_true]
            rw [hv, if_pos rfl]
            simp only [specIdeaOfRow]
        · rw [if_neg hG]
          have hGf := Bool.eq_false_iff.2 hG
          have hv : specValidRow line = false := by
            simp only [specValidRow, hGf, Bool.false_and, Bool.and_false]
          rw [hv, if_neg Bool.false_ne_true]
      · rw [if_neg hF]
        have hv : specValidRow line = false := by
          simp only [specValidRow, decide_eq_false hF, Bool.false_and, Bool.and_false]
        rw [hv, if_neg Bool.false_ne_true]
    · rw [if_neg hde]
      have hv : specValidRow line = false := by
        rcases Bool.and_eq_false_iff.1 (Bool.eq_false_iff.2 hde) with hD | hE
        · simp only [specValidRow, hD, Bool.false_and, Bool.and_false]
        · simp only [specValidRow, hE, Bool.false_and, Bool.and_false]
      rw [hv, if_neg Bool.false_ne_true]

lemma filterMap_ite {α β : Type} (p : α → Bool) (f : α → β) (l : List α) :
    l.filterMap (fun x => if p x = true then some (f x) else none)
      = (l.filter p).map f := by
  induction l with
  | nil => rfl
  | cons x xs ih =>
    by_cases h : p x
    · simp [List.filterMap_cons, List.filter_cons, h, ih]
    · simp [List.filterMap_cons, List.filter_cons, h, ih]

lemma primary_pass_eq (lines : List (List Char)) :
    lines.filterMap rowIdea
      = (lines.filter (fun l => specValidRow l)).map specIdeaOfRow := by
  rw [List.filterMap_congr (fun a _ => rowIdea_eq_spec a)]
  exact filterMap_ite _ _ lines

lemma specValidRow_imp_intRow (line : List Char) (h : specValidRow line = true) :
    specIntTableRow line = true := by
  simp only [specValidRow, Bool.and_eq_true] at h
  simp only [specIntTableRow, Bool.and_eq_true]
  obtain ⟨⟨⟨⟨⟨-, -⟩, -⟩, hpre⟩, hsuf⟩, ⟨hlen, hint⟩, -⟩ := h
  exact ⟨⟨hpre, hsuf⟩, hlen, hint⟩

/-- **C3.** The idea extractor is total by construction (a pure function on
strings in this embedding, so it can raise nothing), and on any text
containing neither a pipe-table row whose first cell parses as an integer nor
a numbered-list line (`"{n}."`/`"{n})"`, `n` in the bounded range 1–20) it
returns the empty list. -/
theorem c3_parse_ideas_empty_on_unrecognized (response : String)
    (h1 : ∀ line ∈ splitChar '\n' response.data, specIntTableRow line = false)
    (h2 : ∀ line ∈ splitChar '\n' response.data, specNumberedLine line = false) :
    parse_ideas response = [] := by
  have hprim : (splitChar '\n' response.data).filterMap rowIdea = [] := by
    rw [List.filterMap_eq_nil_iff]
    intro line hl
    rw [rowIdea_eq_spec]
    have hv : specValidRow line = false := by
      cases hv : specValidRow line
      · rfl
      · have := specValidRow_imp_intRow line hv
        rw [h1 line hl] at this
        cases this
    rw [hv, if_neg Bool.false_ne_true]
  simp only [parse_ideas]
  rw [hprim, if_pos List.isEmpty_nil]
  unfold fallbackIdeas
  rw [List.flatMap_eq_nil_iff]
  intro line hl
  dsimp only
  cases he : (pyStrip line).isEmpty with
  | true => rw [if_pos rfl]
  | false =>
    rw [if_neg Bool.false_ne_true]
    rw [List.filterMap_eq_nil_iff]
    intro i hi
    have hnum := h2 line hl
    simp only [specNumberedLine, List.any_eq_false] at hnum
    have hor := hnum i hi
    rw [Bool.or_eq_true_iff] at hor
    push_neg at hor
    obtain ⟨hp1, hp2⟩ := hor
    rw [if_neg hp1, if_neg hp2]

/-- **C3 witness.** Plain prose with no table and no numbered list. -/
theorem c3_witness : parse_ideas "hello\nworld" = [] :=
  c3_parse_ideas_empty_on_unrecognized "hello\nworld" (by decide) (by decide)

/-- **C4.** On a well-formed pipe table (at least one valid row), `_parse_ideas`
returns exactly one Idea per valid row — header/separator rows and rows whose
title begins with the example marker `（例：` excluded — preserving row order;
in particular, on Scenario C's two-row table it returns exactly two Ideas with
sequence numbers `"1"` and `"2"` in that order. -/
theorem c4_parse_ideas_table_rows (response : String)
    (h : ∃ line ∈ splitChar '\n' response.data, specValidRow line = true) :
    parse_ideas response
        = ((splitChar '\n' response.data).filter (fun l => specValidRow l)).map
            specIdeaOfRow ∧
    (parse_ideas "| 1 | Title A | Summary A |\n| 2 | Title B | Summary B |").map Idea.no
        = ["1", "2"] := by
  constructor
  · obtain ⟨line, hl, hv⟩ := h
    have hne : ((splitChar '\n' response.data).filter (fun l => specValidRow l)).map
        specIdeaOfRow ≠ [] := by
      intro hnil
      rw [List.map_eq_nil_iff] at hnil
      have : line ∈ (splitChar '\n' response.data).filter (fun l => specValidRow l) :=
        List.mem_filter.2 ⟨hl, hv⟩
      rw [hnil] at this
      exact List.not_mem_nil line this
    simp only [parse_ideas]
    rw [primary_pass_eq]
    rw [if_neg (fun hemp => hne (List.isEmpty_iff.1 hemp))]
  · decide

/-- **C4 witness.** The Scenario C table discharges the well-formedness
hypothesis concretely. -/
theorem c4_witness :
    parse_ideas "| 1 | Title A | Summary A |\n| 2 | Title B | Summary B |"
        = ((splitChar '\n' ("| 1 | Title A | Summary A |\n| 2 | Title B | Summary B |" :
            String).data).filter (fun l => specValidRow l)).map specIdeaOfRow ∧
    (parse_ideas "| 1 | Title A | Summary A |\n| 2 | Title B | Summary B |").map Idea.no
        = ["1", "2"] :=
  c4_parse_ideas_table_rows "| 1 | Title A | Summary A |\n| 2 | Title B | Summary B |"
    (by decide)

lemma scriptLoop_unfold3 (gen : Nat → String) :
    scriptLoop gen 0 3
      = (if (check_script (gen 1) (extract_narration (gen 1))).error_count = 0 then
          (gen 1, extract_narration (gen 1),
            check_script (gen 1) (extract_narration (gen 1)), 1)
        else scriptLoop gen 1 2) := rfl

lemma scriptLoop_unfold2 (gen : Nat → String) :
    scriptLoop gen 1 2
      = (if (check_script (gen 2) (extract_narration (gen 2))).error_count = 0 then
          (gen 2, extract_narration (gen 2),
            check_script (gen 2) (extract_narration (gen 2)), 2)
        else scriptLoop gen 2 1) := rfl

lemma scriptLoop_unfold1 (gen : Nat → String) :
    scriptLoop gen 2 1
      = (gen 3, extract_narration (gen 3),
          check_script (gen 3) (extract_narration (gen 3)), 3) := by
  show (if (check_script (gen 3) (extract_narration (gen 3))).error_count = 0 then
      (gen 3, extract_narration (gen 3),
        check_script (gen 3) (extract_narration (gen 3)), 3)
    else (gen 3, extract_narration (gen 3),
        check_script (gen 3) (extract_narration (gen 3)), 3)) = _
  rw [ite_self]

/-- **C1.** For every sequence of generator outputs, the self-correction loop
of `generate_script` makes at most 3 generation attempts — the returned
Script's `quality_score.attempts` never exceeds the retry budget of 3 — and
when every attempt's output fails the Quality Gate the loop still returns
normally (it is a total function of the generator outputs; no exceptional
exit is modelled or needed) with `attempts = 3`, a non-zero `error_count`,
and the last generated text kept as `full_script`. -/
theorem c1_retry_budget_and_exhaustion (idea_title : String) (gen : Nat → String) :
    (generate_script idea_title gen).quality_score.attempts ≤ 3 ∧
    ((∀ i, i < 3 →
        (check_script (gen (i + 1)) (extract_narration (gen (i + 1)))).error_count ≠ 0) →
      (generate_script idea_title gen).quality_score.attempts = 3 ∧
      (generate_script idea_title gen).quality_score.error_count ≠ 0 ∧
      (generate_script idea_title gen).full_script = gen 3) := by
  by_cases h1 : (check_script (gen 1) (extract_narration (gen 1))).error_count = 0
  · have e : generate_script idea_title gen
        = ⟨idea_title, gen 1, extract_narration (gen 1),
            ⟨(check_script (gen 1) (extract_narration (gen 1))).error_count,
              (check_script (gen 1) (extract_narration (gen 1))).warning_count, 1⟩⟩ := by
      unfold generate_script
      rw [scriptLoop_unfold3, if_pos h1]
    rw [e]
    refine ⟨by show (1 : Nat) ≤ 3; omega, fun hfail => absurd h1 (hfail 0 (by omega))⟩
  · by_cases h2 : (check_script (gen 2) (extract_narration (gen 2))).error_count = 0
    · have e : generate_script idea_title gen
          = ⟨idea_title, gen 2, extract_narration (gen 2),
              ⟨(check_script (gen 2) (extract_narration (gen 2))).error_count,
                (check_script (gen 2) (extract_narration (gen 2))).warning_count, 2⟩⟩ := by
        unfold generate_script
        rw [scriptLoop_unfold3, if_neg h1, scriptLoop_unfold2, if_pos h2]
      rw [e]
      refine ⟨by show (2 : Nat) ≤ 3; omega, fun hfail => absurd h2 (hfail 1 (by omega))⟩
    · have e : generate_script idea_title gen
          = ⟨idea_title, gen 3, extract_narration (gen 3),
              ⟨(check_script (gen 3) (extract_narration (gen 3))).error_count,
                (check_script (gen 3) (extract_narration (gen 3))).warning_count, 3⟩⟩ := by
        unfold generate_script
        rw [scriptLoop_unfold3, if_neg h1, scriptLoop_unfold2, if_neg h2, scriptLoop_unfold1]
      rw [e]
      exact ⟨by show (3 : Nat) ≤ 3; omega, fun hfail => ⟨rfl, hfail 2 (by omega), rfl⟩⟩

/-- **C1 witness.** A generator that always replies `"AI"` (a banned
meta-vocabulary term) fails the Gate on every attempt: the loop exhausts its
3 attempts, reports a non-zero error count, and keeps the last reply. -/
theorem c1_witness :
    (generate_script "" (fun _ => "AI")).quality_score.attempts = 3 ∧
    (generate_script "" (fun _ => "AI")).quality_score.error_count ≠ 0 ∧
    (generate_script "" (fun _ => "AI")).full_script = "AI" :=
  (c1_retry_budget_and_exhaustion "" (fun _ => "AI")).2 (by decide)

/-! ## Lemmas about the classifier's first-maximum fold -/

lemma foldl_bestStep_ne_none (l : List (String × Nat)) (b0 : String × Nat) :
    ∃ b, l.foldl bestStep (some b0) = some b := by
  induction l generalizing b0 with
  | nil => exact ⟨b0, rfl⟩
  | cons q l ih =>
    show ∃ b, l.foldl bestStep (bestStep (some b0) q) = some b
    by_cases h : q.2 > b0.2
    · simp only [bestStep, if_pos h]
      exact ih q
    · simp only [bestStep, if_neg h]
      exact ih b0

lemma foldl_bestStep_none_eq (l : List (String × Nat)) :
    l.foldl bestStep none = none ↔ l = [] := by
  constructor
  · intro h
    cases l with
    | nil => rfl
    | cons q l =>
      obtain ⟨b, hb⟩ := foldl_bestStep_ne_none l q
      have : (q :: l).foldl bestStep none = some b := hb
      rw [h] at this
      cases this
  · rintro rfl
    rfl

lemma foldl_bestStep_shift (l : List (String × Nat)) (b0 : String × Nat) :
    l.foldl bestStep (some b0) = some (match l.foldl bestStep none with
      | none => b0
      | some b => if b.2 > b0.2 then b else b0) := by
  induction l generalizing b0 with
  | nil => rfl
  | cons q l ih =>
    show l.foldl bestStep (bestStep (some b0) q) = _
    have hcons : (q :: l).foldl bestStep none = l.foldl bestStep (some q) := rfl
    by_cases h : q.2 > b0.2
    · simp only [bestStep, if_pos h]
      rw [ih q, hcons, ih q]
      cases e : l.foldl bestStep none with
      | none => simp [h]
      | some b =>
        by_cases hb : b.2 > q.2
        · simp only [hb, if_pos hb]
          have hbb0 : b.2 > b0.2 := lt_trans h hb
          simp [hbb0]
        · simp only [if_neg hb]
          simp [h]
    · simp only [bestStep, if_neg h]
      rw [ih b0, hcons, ih q]
      cases e : l.foldl bestStep none with
      | none => simp [h]
      | some b =>
        by_cases hb : b.2 > q.2
        · simp [hb]
        · have hnb : ¬ b.2 > b0.2 := by omega
          simp [hb, h, hnb]

lemma firstMax_filter_spec (L : List (String × Nat)) : ∀ b : String × Nat,
    (L.filter (fun p => decide (0 < p.2))).foldl bestStep none = some b →
    ∃ j, ∃ hj : j < L.length, L.get ⟨j, hj⟩ = b ∧ 0 < b.2 ∧
      (∀ i, ∀ hi : i < L.length, (L.get ⟨i, hi⟩).2 ≤ b.2) ∧
      (∀ i, ∀ hi : i < L.length, i < j → (L.get ⟨i, hi⟩).2 < b.2) := by
  induction L with
  | nil => intro b h; cases h
  | cons p L ih =>
    intro b h
    by_cases hp : 0 < p.2
    case neg =>
      have hp0 : p.2 = 0 := by omega
      have hfil : (p :: L).filter (fun p => decide (0 < p.2))
          = L.filter (fun p => decide (0 < p.2)) := by
        simp [List.filter_cons, hp]
      rw [hfil] at h
      obtain ⟨j, hj, hget, hbpos, hmax, hfirst⟩ := ih b h
      refine ⟨j + 1, Nat.succ_lt_succ hj, by simpa using hget, hbpos, ?_, ?_⟩
      · intro i hi
        cases i with
        | zero =>
          show p.2 ≤ b.2
          omega
        | succ i =>
          have hi' : i < L.length := by simpa using Nat.lt_of_succ_lt_succ hi
          simpa using hmax i hi'
      · intro i hi hij
        cases i with
        | zero =>
          show p.2 < b.2
          omega
        | succ i =>
          have hi' : i < L.length := by simpa using Nat.lt_of_succ_lt_succ hi
          simpa using hfirst i hi' (Nat.lt_of_succ_lt_succ hij)
    case pos =>
      have hfil : (p :: L).filter (fun p => decide (0 < p.2))
          = p :: L.filter (fun p => decide (0 < p.2)) := by
        simp [List.filter_cons, hp]
      rw [hfil] at h
      have h' : (L.filter (fun p => decide (0 < p.2))).foldl bestStep (some p) = some b := h
      rw [foldl_bestStep_shift] at h'
      cases e : (L.filter (fun p => decide (0 < p.2))).foldl bestStep none with
      | none =>
        rw [e] at h'
        dsimp only at h'
        obtain rfl : p = b := Option.some.inj h'
        have hfe : L.filter (fun p => decide (0 < p.2)) = [] :=
          (foldl_bestStep_none_eq _).1 e
        have hzero : ∀ q ∈ L, q.2 = 0 := by
          intro q hq
          by_contra hnz
          have hqf : q ∈ L.filter (fun p => decide (0 < p.2)) :=
            List.mem_filter.2 ⟨hq, by simpa using Nat.pos_of_ne_zero hnz⟩
          rw [hfe] at hqf
          exact List.not_mem_nil q hqf
        refine ⟨0, Nat.succ_pos _, rfl, hp, ?_, ?_⟩
        · intro i hi
          cases i with
          | zero => exact le_refl _
          | succ i =>
            have hi' : i < L.length := by simpa using Nat.lt_of_succ_lt_succ hi
            have hz := hzero (L.get ⟨i, hi'⟩) (L.get_mem _ _)
            simp only [List.get_cons_succ]
            omega
        · intro i hi hij
          cases hij
      | some c =>
        rw [e] at h'
        dsimp only at h'
        obtain ⟨j, hj, hget, hcpos, hmax, hfirst⟩ := ih c e
        by_cases hcb : c.2 > p.2
        · obtain rfl : c = b := by
            have hinj := Option.some.inj h'
            rwa [if_pos hcb] at hinj
          refine ⟨j + 1, Nat.succ_lt_succ hj, by simpa using hget, hcpos, ?_, ?_⟩
          · intro i hi
            cases i with
            | zero =>
              show p.2 ≤ c.2
              omega
            | succ i =>
              have hi' : i < L.length := by simpa using Nat.lt_of_succ_lt_succ hi
              have := hmax i hi'
              simp only [List.get_cons_succ]
              omega
          · intro i hi hij
            cases i with
            | zero =>
              show p.2 < c.2
              exact hcb
            | succ i =>
              have hi' : i < L.length := by simpa using Nat.lt_of_succ_lt_succ hi
              have := hfirst i hi' (Nat.lt_of_succ_lt_succ hij)
              simp only [List.get_cons_succ]
              omega
        · obtain rfl : p = b := by
            have hinj := Option.some.inj h'
            rwa [if_neg hcb] at hinj
          refine ⟨0, Nat.succ_pos _, rfl, hp, ?_, ?_⟩
          · intro i hi
            cases i with
            | zero => exact le_refl _
            | succ i =>
              have hi' : i < L.length := by simpa using Nat.lt_of_succ_lt_succ hi
              have := hmax i hi'
              simp only [List.get_cons_succ]
              omega
          · intro i hi hij
            cases hij

/-- Keyword-match count of one idea against one category row of the table. -/
def kwCount (idea : Idea) (ck : String × List String) : Nat :=
  countKw ck.2 (combinedText idea)

lemma matchCounts_eq_filter (idea : Idea) :
    APPEAL_KEYWORDS.filterMap (fun ck =>
        let count := countKw ck.2 (combinedText idea)
        if count > 0 then some (ck.1, count) else none)
      = (APPEAL_KEYWORDS.map (fun ck => (ck.1, kwCount idea ck))).filter
          (fun p => decide (0 < p.2)) := by
  induction APPEAL_KEYWORDS with
  | nil => rfl
  | cons ck l ih =>
    by_cases h : 0 < countKw ck.2 (combinedText idea)
    · simp [List.filterMap_cons, List.filter_cons, kwCount, h, ih]
    · simp [List.filterMap_cons, List.filter_cons, kwCount, h, ih]

/-- **C6.** The classifier step of `analyze_ideas` concatenates `title` and
`summary`, counts keyword matches per category over the six fixed tables, and
assigns the category with the highest match count, ties resolved in favor of
the earliest category in table declaration order; an idea matching zero
keywords in every category is assigned `"その他"` (the "other" category). -/
theorem c6_classifier_argmax (idea : Idea) :
    ((∀ ck ∈ APPEAL_KEYWORDS, kwCount idea ck = 0) → classifyIdea idea = "その他") ∧
    ((∃ ck ∈ APPEAL_KEYWORDS, 0 < kwCount idea ck) →
      ∃ j, ∃ hj : j < APPEAL_KEYWORDS.length,
        classifyIdea idea = (APPEAL_KEYWORDS.get ⟨j, hj⟩).1 ∧
        0 < kwCount idea (APPEAL_KEYWORDS.get ⟨j, hj⟩) ∧
        (∀ i, ∀ hi : i < APPEAL_KEYWORDS.length,
          kwCount idea (APPEAL_KEYWORDS.get ⟨i, hi⟩)
            ≤ kwCount idea (APPEAL_KEYWORDS.get ⟨j, hj⟩)) ∧
        (∀ i, ∀ hi : i < APPEAL_KEYWORDS.length, i < j →
          kwCount idea (APPEAL_KEYWORDS.get ⟨i, hi⟩)
            < kwCount idea (APPEAL_KEYWORDS.get ⟨j, hj⟩))) := by
  constructor
  · intro hz
    have hfil : (APPEAL_KEYWORDS.map (fun ck => (ck.1, kwCount idea ck))).filter
        (fun p => decide (0 < p.2)) = [] := by
      rw [List.filter_eq_nil_iff]
      intro p hp
      obtain ⟨ck, hck, rfl⟩ := List.mem_map.1 hp
      simp [hz ck hck]
    show (let combined := combinedText idea
      let matchCounts := APPEAL_KEYWORDS.filterMap (fun ck =>
        let count := countKw ck.2 combined
        if count > 0 then some (ck.1, count) else none)
      match (matchCounts.foldl bestStep none).map Prod.fst with
      | some primary => primary
      | none => "その他") = "その他"
    dsimp only
    rw [matchCounts_eq_filter idea, hfil]
    rfl
  · intro hex
    have hne : (APPEAL_KEYWORDS.map (fun ck => (ck.1, kwCount idea ck))).filter
        (fun p => decide (0 < p.2)) ≠ [] := by
      obtain ⟨ck, hck, hpos⟩ := hex
      intro hnil
      have hm : (ck.1, kwCount idea ck) ∈ (APPEAL_KEYWORDS.map
          (fun ck => (ck.1, kwCount idea ck))).filter (fun p => decide (0 < p.2)) :=
        List.mem_filter.2 ⟨List.mem_map.2 ⟨ck, hck, rfl⟩, by simpa using hpos⟩
      rw [hnil] at hm
      exact List.not_mem_nil _ hm
    obtain ⟨b, hb⟩ : ∃ b, ((APPEAL_KEYWORDS.map (fun ck => (ck.1, kwCount idea ck))).filter
        (fun p => decide (0 < p.2))).foldl bestStep none = some b := by
      cases hfold : ((APPEAL_KEYWORDS.map (fun ck => (ck.1, kwCount idea ck))).filter
          (fun p => decide (0 < p.2))).foldl bestStep none with
      | none => exact absurd ((foldl_bestStep_none_eq _).1 hfold) hne
      | some b => exact ⟨b, rfl⟩
    obtain ⟨j, hj, hget, hbpos, hmax, hfirst⟩ := firstMax_filter_spec _ b hb
    have hjlen : j < APPEAL_KEYWORDS.length := by simpa using hj
    have hclass : classifyIdea idea = b.1 := by
      show (let combined := combinedText idea
        let matchCounts := APPEAL_KEYWORDS.filterMap (fun ck =>
          let count := countKw ck.2 combined
          if count > 0 then some (ck.1, count) else none)
        match (matchCounts.foldl bestStep none).map Prod.fst with
        | some primary => primary
        | none => "その他") = b.1
      dsimp only
      rw [matchCounts_eq_filter idea, hb]
      rfl
    have hgetj : (APPEAL_KEYWORDS.map (fun ck => (ck.1, kwCount idea ck))).get
        ⟨j, hj⟩ = ((APPEAL_KEYWORDS.get ⟨j, hjlen⟩).1,
          kwCount idea (APPEAL_KEYWORDS.get ⟨j, hjlen⟩)) := by
      rw [List.get_map]
    refine ⟨j, hjlen, ?_, ?_, ?_, ?_⟩
    · rw [hclass, ← hget, hgetj]
    · have : b.2 = kwCount idea (APPEAL_KEYWORDS.get ⟨j, hjlen⟩) := by
        rw [← hget, hgetj]
      omega
    · intro i hi
      have hi' : i < (APPEAL_KEYWORDS.map (fun ck => (ck.1, kwCount idea ck))).length := by
        simpa using hi
      have hm := hmax i hi'
      rw [List.get_map] at hm
      have hbj : b.2 = kwCount idea (APPEAL_KEYWORDS.get ⟨j, hjlen⟩) := by
        rw [← hget, hgetj]
      simp only at hm
      omega
    · intro i hi hij
      have hi' : i < (APPEAL_KEYWORDS.map (fun ck => (ck.1, kwCount idea ck))).length := by
        simpa using hi
      have hm := hfirst i hi' hij
      rw [List.get_map] at hm
      have hbj : b.2 = kwCount idea (APPEAL_KEYWORDS.get ⟨j, hjlen⟩) := by
        rw [← hget, hgetj]
      simp only at hm
      omega

/-- **C6 witness.** A keyword-free idea gets `"その他"`; an idea whose title
contains the fear keyword `失敗` is classified by the argmax rule. -/
theorem c6_witness :
    classifyIdea ⟨"", "x", "", ""⟩ = "その他" ∧
    (∃ j, ∃ hj : j < APPEAL_KEYWORDS.length,
      classifyIdea ⟨"", "失敗", "", ""⟩ = (APPEAL_KEYWORDS.get ⟨j, hj⟩).1 ∧
      0 < kwCount ⟨"", "失敗", "", ""⟩ (APPEAL_KEYWORDS.get ⟨j, hj⟩) ∧
      (∀ i, ∀ hi : i < APPEAL_KEYWORDS.length,
        kwCount ⟨"", "失敗", "", ""⟩ (APPEAL_KEYWORDS.get ⟨i, hi⟩)
          ≤ kwCount ⟨"", "失敗", "", ""⟩ (APPEAL_KEYWORDS.get ⟨j, hj⟩)) ∧
      (∀ i, ∀ hi : i < APPEAL_KEYWORDS.length, i < j →
        kwCount ⟨"", "失敗", "", ""⟩ (APPEAL_KEYWORDS.get ⟨i, hi⟩)
          < kwCount ⟨"", "失敗", "", ""⟩ (APPEAL_KEYWORDS.get ⟨j, hj⟩))) :=
  ⟨(c6_classifier_argmax ⟨"", "x", "", ""⟩).1 (by decide),
    (c6_classifier_argmax ⟨"", "失敗", "", ""⟩).2 (by decide)⟩

/-- **C5.** For every non-empty batch, `analyze_ideas` reports
`is_balanced == false` iff some single category's share of the batch exceeds
50% or fewer than 3 distinct categories (the `"その他"` category included)
appear in the distribution, and `should_regenerate` returns `true` whenever
`is_balanced` is false. -/
theorem c5_balance_verdict (ideas : List Idea) (h : ideas ≠ []) :
    ((analyze_ideas ideas).is_balanced = false ↔
      ((∃ p ∈ (analyze_ideas ideas).appeal_distribution,
          ((p.2 : ℚ) / ideas.length) * 100 > 50) ∨
        (analyze_ideas ideas).appeal_distribution.length < 3)) ∧
    ((analyze_ideas ideas).is_balanced = false →
      should_regenerate (analyze_ideas ideas) = true) := by
  have hne : ideas.isEmpty = false := by
    cases ideas with
    | nil => exact absurd rfl h
    | cons a l => rfl
  have ha : analyze_ideas ideas = ⟨ideas.length,
      counter (ideas.map classifyIdea),
      ideas.map classifyIdea,
      ((counter (ideas.map classifyIdea)).filterMap (fun p =>
          if ((p.2 : ℚ) / ideas.length) * 100 > 50 then
            some (AnalysisWarning.skewed p.1 p.2)
          else none)).isEmpty && !(decide ((counter (ideas.map classifyIdea)).length ≤ 2)),
      ((counter (ideas.map classifyIdea)).filterMap (fun p =>
          if ((p.2 : ℚ) / ideas.length) * 100 > 50 then
            some (AnalysisWarning.skewed p.1 p.2)
          else none)) ++
        (if (counter (ideas.map classifyIdea)).length ≤ 2 then
          [AnalysisWarning.lowVariety (counter (ideas.map classifyIdea)).length]
        else [])⟩ := by
    simp only [analyze_ideas]
    rw [hne, if_neg Bool.false_ne_true]
  constructor
  · rw [ha]
    dsimp only
    rw [Bool.and_eq_false_iff]
    constructor
    · rintro (hsw | hlv)
      · left
        have hne' : (counter (ideas.map classifyIdea)).filterMap (fun p =>
            if ((p.2 : ℚ) / ideas.length) * 100 > 50 then
              some (AnalysisWarning.skewed p.1 p.2)
            else none) ≠ [] := List.isEmpty_eq_false.1 hsw
        obtain ⟨a, ha'⟩ := List.exists_mem_of_ne_nil _ hne'
        obtain ⟨p, hpD, hpsome⟩ := List.mem_filterMap.1 ha'
        refine ⟨p, hpD, ?_⟩
        by_contra hnc
        rw [if_neg hnc] at hpsome
        cases hpsome
      · right
        have hd : decide ((counter (ideas.map classifyIdea)).length ≤ 2) = true := by
          rw [← Bool.not_eq_false']
          exact hlv
        have := of_decide_eq_true hd
        omega
    · rintro (⟨p, hpD, hpc⟩ | hlen)
      · left
        have hmem : AnalysisWarning.skewed p.1 p.2 ∈
            (counter (ideas.map classifyIdea)).filterMap (fun p =>
              if ((p.2 : ℚ) / ideas.length) * 100 > 50 then
                some (AnalysisWarning.skewed p.1 p.2)
              else none) :=
          List.mem_filterMap.2 ⟨p, hpD, by rw [if_pos hpc]⟩
        rw [List.isEmpty_eq_false]
        intro hnil
        rw [hnil] at hmem
        exact List.not_mem_nil _ hmem
      · right
        rw [Bool.not_eq_false']
        exact decide_eq_true (by omega)
  · intro hbal
    simp only [should_regenerate]
    rw [hbal]
    rw [if_pos (show (!false) = true from rfl)]

/-- The batch of Scenario E: 6 fear-appeal ideas and 4 benefit-appeal ideas. -/
def batchE : List Idea :=
  List.replicate 6 ⟨"", "失敗", "", ""⟩ ++ List.replicate 4 ⟨"", "成功", "", ""⟩

/-- **C5 witness.** On the Scenario E batch (10 ideas: 6 classified
fear-appeal, 4 benefit-appeal) the fear-appeal share is 60% > 50%, so
`is_balanced` is false and `should_regenerate` is true. -/
theorem c5_witness :
    (analyze_ideas batchE).is_balanced = false ∧
    should_regenerate (analyze_ideas batchE) = true := by
  have hd : (analyze_ideas batchE).appeal_distribution
      = [("恐怖訴求", 6), ("メリット訴求", 4)] := by decide
  have hlen : batchE.length = 10 := by decide
  have hbal : (analyze_ideas batchE).is_balanced = false := by
    rw [(c5_balance_verdict batchE (by decide)).1]
    left
    refine ⟨("恐怖訴求", 6), ?_, ?_⟩
    · rw [hd]
      exact List.mem_cons_self _ _
    · rw [hlen]
      norm_num
  exact ⟨hbal, (c5_balance_verdict batchE (by decide)).2 hbal⟩
